import Mathlib

/-!
Verification development for the SG chatbot relay server (src/server.js).

The server relays chat messages to a fixed webhook and relays the reply
back, either as one JSON-extracted string or as an incrementally decoded
line stream, and appends each exchange to a JSON history file.

The embedding models:
- JSON values (`JVal`) with JavaScript truthiness and property lookup;
- a JSON text parser (`parseJson`) standing in for `JSON.parse`, and a
  serializer (`stringify`) standing in for `JSON.stringify`;
- the JSON-branch extraction of `app.post(/api/chat)` (`extractJsonE`),
  the streaming branch (`lineEmit`, `runStream`), the error branches and
  the whole handler (`handleChat`);
- the history append (`saveHistory`).
-/

/-- A JSON value, as produced by JSON.parse. Numbers are modelled as
integers: no claim under verification involves fractional numerals, and
the parser rejects them rather than approximating. -/
inductive JVal where
  | str : String → JVal
  | num : Int → JVal
  | bool : Bool → JVal
  | null : JVal
  | arr : List JVal → JVal
  | obj : List (String × JVal) → JVal

/-- Last-match association lookup: JSON.parse keeps the last occurrence of
a duplicated key, so lookup returns the last binding. -/
def lookupLast : List (String × JVal) → String → Option JVal
  | [], _ => none
  | (k, v) :: fs, key =>
    match lookupLast fs key with
    | some r => some r
    | none => if k = key then some v else none

/-- JavaScript property access `v.key` on a JSON value: objects yield the
field when present, every non-object non-null value yields undefined
(`none`). Access on `null` throws and is handled at each use site. -/
def jlookup (v : JVal) (key : String) : Option JVal :=
  match v with
  | JVal.obj fs => lookupLast fs key
  | _ => none

/-- JavaScript truthiness of a possibly-undefined value: undefined, null,
false, 0 and the empty string are falsy, everything else is truthy. -/
def truthy : Option JVal → Bool
  | none => false
  | some (JVal.str s) => !(s == "")
  | some (JVal.num n) => !(n == 0)
  | some (JVal.bool b) => b
  | some JVal.null => false
  | some (JVal.arr _) => true
  | some (JVal.obj _) => true

/-- JavaScript `a || b` on possibly-undefined values: the left operand when
truthy, otherwise the right operand. -/
def jsOr (a b : Option JVal) : Option JVal :=
  if truthy a then a else b

/-- Whitespace recognized by the JSON grammar and by `String.trim`. -/
def isWsChar (c : Char) : Bool :=
  c = ' ' || c = '\n' || c = '\t' || c = '\r'

/-- Drop leading whitespace from a character list. -/
def skipWs : List Char → List Char
  | [] => []
  | c :: cs => if isWsChar c then skipWs cs else c :: cs

/-- JavaScript `String.prototype.trim`: drop whitespace at both ends. -/
def jsTrim (s : String) : String :=
  String.mk (List.reverse (skipWs (List.reverse (skipWs s.data))))

/-- Decode one character escape inside a JSON string literal. -/
def escDecode (c : Char) : Option Char :=
  if c = '"' then some '"'
  else if c = '\\' then some '\\'
  else if c = '/' then some '/'
  else if c = 'n' then some '\n'
  else if c = 't' then some '\t'
  else if c = 'r' then some '\r'
  else if c = 'b' then some (Char.ofNat 8)
  else if c = 'f' then some (Char.ofNat 12)
  else none

/-- Hexadecimal digit value. -/
def hexVal (c : Char) : Option Nat :=
  if '0' ≤ c ∧ c ≤ '9' then some (c.toNat - 48)
  else if 'a' ≤ c ∧ c ≤ 'f' then some (c.toNat - 87)
  else if 'A' ≤ c ∧ c ≤ 'F' then some (c.toNat - 55)
  else none

/-- Parse the body of a JSON string literal after the opening quote,
returning the decoded string and the remaining input. -/
def pStr (acc : List Char) : List Char → Option (String × List Char)
  | [] => none
  | '"' :: rest => some (String.mk acc, rest)
  | '\\' :: 'u' :: a :: b :: c :: d :: rest =>
    match hexVal a, hexVal b, hexVal c, hexVal d with
    | some ha, some hb, some hc, some hd =>
      pStr (acc ++ [Char.ofNat (((ha * 16 + hb) * 16 + hc) * 16 + hd)]) rest
    | _, _, _, _ => none
  | '\\' :: e :: rest =>
    match escDecode e with
    | some ec => pStr (acc ++ [ec]) rest
    | none => none
  | c :: rest => if c.toNat < 32 then none else pStr (acc ++ [c]) rest

/-- Consume a run of decimal digits, accumulating their value. -/
def pDigits (acc : Nat) : List Char → (Nat × List Char)
  | [] => (acc, [])
  | c :: cs =>
    if c.isDigit then pDigits (acc * 10 + (c.toNat - 48)) cs else (acc, c :: cs)

/-- After an integer numeral, a fraction or exponent marker is rejected:
the model restricts JSON numerals to integers. -/
def numEndsOk : List Char → Bool
  | [] => true
  | c :: _ => !(c = '.' || c = 'e' || c = 'E')

mutual

/-- Fueled JSON value parser, modelling `JSON.parse`. Returns the parsed
value and the unconsumed input. -/
def pVal : Nat → List Char → Option (JVal × List Char)
  | 0, _ => none
  | Nat.succ fuel, cs =>
    match skipWs cs with
    | [] => none
    | '"' :: rest => (pStr [] rest).map (fun sr => (JVal.str sr.1, sr.2))
    | 't' :: 'r' :: 'u' :: 'e' :: rest => some (JVal.bool true, rest)
    | 'f' :: 'a' :: 'l' :: 's' :: 'e' :: rest => some (JVal.bool false, rest)
    | 'n' :: 'u' :: 'l' :: 'l' :: rest => some (JVal.null, rest)
    | '[' :: rest =>
      (match skipWs rest with
       | ']' :: rest2 => some (JVal.arr [], rest2)
       | rest2 => (pElems fuel rest2).map (fun er => (JVal.arr er.1, er.2)))
    | '\x7b' :: rest =>
      (match skipWs rest with
       | '\x7d' :: rest2 => some (JVal.obj [], rest2)
       | rest2 => (pFields fuel rest2).map (fun fr => (JVal.obj fr.1, fr.2)))
    | '-' :: rest =>
      (match rest with
       | c :: _ =>
         if c.isDigit then
           let dr := pDigits 0 rest
           if numEndsOk dr.2 then some (JVal.num (-(Int.ofNat dr.1)), dr.2) else none
         else none
       | [] => none)
    | c :: rest =>
      if c.isDigit then
        let dr := pDigits 0 (c :: rest)
        if numEndsOk dr.2 then some (JVal.num (Int.ofNat dr.1), dr.2) else none
      else none

/-- Parse one or more comma-separated array elements up to the closing
bracket. -/
def pElems : Nat → List Char → Option (List JVal × List Char)
  | 0, _ => none
  | Nat.succ fuel, cs =>
    match pVal fuel cs with
    | none => none
    | some (v, rest) =>
      match skipWs rest with
      | ',' :: rest2 => (pElems fuel rest2).map (fun er => (v :: er.1, er.2))
      | ']' :: rest2 => some ([v], rest2)
      | _ => none

/-- Parse one or more comma-separated object fields up to the closing
brace. -/
def pFields : Nat → List Char → Option (List (String × JVal) × List Char)
  | 0, _ => none
  | Nat.succ fuel, cs =>
    match skipWs cs with
    | '"' :: rest =>
      (match pStr [] rest with
       | none => none
       | some (k, rest2) =>
         match skipWs rest2 with
         | ':' :: rest3 =>
           (match pVal fuel rest3 with
            | none => none
            | some (v, rest4) =>
              match skipWs rest4 with
              | ',' :: rest5 => (pFields fuel rest5).map (fun fr => ((k, v) :: fr.1, fr.2))
              | '\x7d' :: rest5 => some ([(k, v)], rest5)
              | _ => none)
         | _ => none)
    | _ => none

end

/-- `JSON.parse`: parse a complete JSON text; trailing non-whitespace or
any syntax error yields `none` (the JavaScript call throws). -/
def parseJson (s : String) : Option JVal :=
  match pVal (s.data.length * 4 + 16) s.data with
  | some (v, rest) => if (skipWs rest).isEmpty then some v else none
  | none => none

example : parseJson "\x7b\"response\":\"hi\"\x7d" = some (JVal.obj [("response", JVal.str "hi")]) := rfl
example : parseJson "5" = some (JVal.num 5) := rfl
example : parseJson "not json" = none := rfl
example : parseJson "\x7b\"ty" = none := rfl
example : parseJson "[\x7b\"text\":\"a\"\x7d,\x7b\"text\":\"b\"\x7d]"
    = some (JVal.arr [JVal.obj [("text", JVal.str "a")], JVal.obj [("text", JVal.str "b")]]) := rfl

/-- Escape one character for a JSON string literal, as JSON.stringify does. -/
def escEncode (c : Char) : List Char :=
  if c = '"' then ['\\', '"']
  else if c = '\\' then ['\\', '\\']
  else if c = '\n' then ['\\', 'n']
  else if c = '\t' then ['\\', 't']
  else if c = '\r' then ['\\', 'r']
  else if c = Char.ofNat 8 then ['\\', 'b']
  else if c = Char.ofNat 12 then ['\\', 'f']
  else if c.toNat < 32 then
    ['\\', 'u', '0', '0',
     (if c.toNat / 16 < 10 then Char.ofNat (48 + c.toNat / 16) else Char.ofNat (87 + c.toNat / 16)),
     (if c.toNat % 16 < 10 then Char.ofNat (48 + c.toNat % 16) else Char.ofNat (87 + c.toNat % 16))]
  else [c]

/-- Serialize a string as a quoted JSON string literal. -/
def quoteStr (s : String) : String :=
  "\"" ++ String.mk (s.data.foldr (fun c acc => escEncode c ++ acc) []) ++ "\""

/-- Join strings with a separator, as Array.prototype.join does. -/
def joinSep (sep : String) : List String → String
  | [] => ""
  | [s] => s
  | s :: rest => s ++ sep ++ joinSep sep rest

mutual

/-- `JSON.stringify` without indentation, as used for the fallback bot
response in the chat handler. -/
def stringify : JVal → String
  | JVal.str s => quoteStr s
  | JVal.num n => toString n
  | JVal.bool b => if b then "true" else "false"
  | JVal.null => "null"
  | JVal.arr xs => "[" ++ sItems xs ++ "]"
  | JVal.obj fs => "\x7b" ++ sFields fs ++ "\x7d"

/-- Serialize array elements separated by commas. -/
def sItems : List JVal → String
  | [] => ""
  | [v] => stringify v
  | v :: vs => stringify v ++ "," ++ sItems vs

/-- Serialize object fields separated by commas. -/
def sFields : List (String × JVal) → String
  | [] => ""
  | [(k, v)] => quoteStr k ++ ":" ++ stringify v
  | (k, v) :: fs => quoteStr k ++ ":" ++ stringify v ++ "," ++ sFields fs

end

mutual

/-- JavaScript `String()` coercion of a JSON value, as applied by
Array.prototype.join to each element. -/
def jsStringOf : JVal → String
  | JVal.str s => s
  | JVal.num n => toString n
  | JVal.bool b => if b then "true" else "false"
  | JVal.null => "null"
  | JVal.obj _ => "[object Object]"
  | JVal.arr xs => jsJoinList xs

/-- Array.prototype.toString: elements joined with commas, where a null
element contributes the empty string. -/
def jsJoinList : List JVal → String
  | [] => ""
  | [v] => (match v with | JVal.null => "" | _ => jsStringOf v)
  | v :: vs => (match v with | JVal.null => "" | _ => jsStringOf v) ++ "," ++ jsJoinList vs

end

/-- `parts.join(sep)` on JSON values: each element is coerced with
`String()`, a null element contributing the empty string. -/
def joinVals (sep : String) (parts : List JVal) : String :=
  joinSep sep (parts.map (fun v => match v with | JVal.null => "" | _ => jsStringOf v))

/-- Left-to-right effectful map over a list, stopping at the first thrown
exception, as Array.prototype.map does when the callback throws. -/
def mapExcept (f : JVal → Except Unit JVal) : List JVal → Except Unit (List JVal)
  | [] => Except.ok []
  | x :: xs =>
    match f x with
    | Except.error e => Except.error e
    | Except.ok y =>
      match mapExcept f xs with
      | Except.error e => Except.error e
      | Except.ok ys => Except.ok (y :: ys)

example : stringify (JVal.obj [("output", JVal.str "z")]) = "\x7b\"output\":\"z\"\x7d" := rfl
example : stringify (JVal.arr []) = "[]" := rfl

/-! ### JSON-branch extraction (server.js lines 126-153) -/

/-- One array element of the JSON branch (server.js lines 142-145):
`item => typeof item === string ? item : item.message || item.response ||
item.text || JSON.stringify(item)`. Property access on a null element
throws, which aborts the whole map. -/
def elemReduce (item : JVal) : Except Unit JVal :=
  match item with
  | JVal.str s => Except.ok (JVal.str s)
  | JVal.null => Except.error ()
  | _ =>
    Except.ok ((jsOr (jsOr (jsOr (jlookup item "message") (jlookup item "response"))
        (jlookup item "text")) (some (JVal.str (stringify item)))).getD JVal.null)

/-- The JSON-branch `botResponse` computation (server.js lines 129-148):
a string payload is passed through; otherwise the first truthy of the
`message`, `response`, `text`, `output` fields; otherwise a non-empty
array is element-wise reduced by `elemReduce` and joined with a blank
line; otherwise the serialized payload. A null payload throws on the
first property access (`Except.error`). -/
def extractJsonE (data : JVal) : Except Unit JVal :=
  match data with
  | JVal.str s => Except.ok (JVal.str s)
  | JVal.null => Except.error ()
  | _ =>
    if truthy (jlookup data "message") then Except.ok ((jlookup data "message").getD JVal.null)
    else if truthy (jlookup data "response") then Except.ok ((jlookup data "response").getD JVal.null)
    else if truthy (jlookup data "text") then Except.ok ((jlookup data "text").getD JVal.null)
    else if truthy (jlookup data "output") then Except.ok ((jlookup data "output").getD JVal.null)
    else
      match data with
      | JVal.arr items =>
        if items.length > 0 then
          match mapExcept elemReduce items with
          | Except.error e => Except.error e
          | Except.ok parts => Except.ok (JVal.str (joinVals "\n\n" parts))
        else Except.ok (JVal.str (stringify data))
      | _ => Except.ok (JVal.str (stringify data))

/-- The whole JSON branch (server.js lines 126-153): `response.json()`
throws on an unparsable body; `res.write(botResponse)` throws on a
non-string bot response. On success the pair is (text written to the
caller, bot response handed to saveHistory) - the same string. -/
def jsonBranchRun (bodyText : String) : Except Unit (String × String) :=
  match parseJson bodyText with
  | none => Except.error ()
  | some data =>
    match extractJsonE data with
    | Except.error e => Except.error e
    | Except.ok (JVal.str s) => Except.ok (s, s)
    | Except.ok _ => Except.error ()

/-! ### Streaming branch (server.js lines 155-213) -/

/-- The item test of server.js line 175: `json.type === 'item' &&
json.content`. Strict equality with the string literal requires the
`type` field to be exactly the string "item". -/
def itemCond (json : JVal) : Bool :=
  (match jlookup json "type" with
   | some (JVal.str t) => t == "item"
   | _ => false) && truthy (jlookup json "content")

/-- The value passed to `res.write` for one parsed line (server.js lines
175-182): the `content` field in the item case, else the first truthy of
`message`, `text`, `response`; `none` when no branch fires and nothing is
written. -/
def streamExtract (json : JVal) : Option JVal :=
  if itemCond json then jlookup json "content"
  else if truthy (jsOr (jsOr (jlookup json "message") (jlookup json "text"))
      (jlookup json "response")) then
    jsOr (jsOr (jlookup json "message") (jlookup json "text")) (jlookup json "response")
  else none

/-- The fragment a complete line contributes to the caller-facing stream
and the accumulator (server.js lines 171-189). A blank line is skipped.
A line parsing to null throws on `json.type` and the catch forwards the
raw line; a parse failure likewise forwards the raw line; an extracted
non-string value makes `res.write` throw inside the try, so the catch
also forwards the raw line. -/
def lineEmit (line : String) : Option String :=
  if jsTrim line == "" then none
  else
    match parseJson line with
    | some JVal.null => some line
    | some json =>
      match streamExtract json with
      | some (JVal.str s) => some s
      | some _ => some line
      | none => none
    | none => some line

/-- State of the streaming loop: the carry-over buffer, the fragments
written to the caller, and the `fullResponse` accumulator. -/
structure StreamState where
  buffer : List Char
  writes : List String
  full : String

/-- Process one complete line (server.js lines 171-189): a produced
fragment is written to the caller and appended to `fullResponse`. -/
def procLine (st : StreamState) (line : String) : StreamState :=
  match lineEmit line with
  | some s => { st with writes := st.writes ++ [s], full := st.full ++ s }
  | none => st

/-- Split a character list on the newline character, keeping empty
pieces, as `buffer.split(n)` does. The result is never empty. -/
def splitNl : List Char → List (List Char)
  | [] => [[]]
  | c :: cs =>
    if c = '\n' then [] :: splitNl cs
    else
      match splitNl cs with
      | [] => [[c]]
      | l :: ls => (c :: l) :: ls

/-- Process one arriving chunk (server.js lines 163-190): append to the
buffer, split on newlines, keep the final incomplete piece as the new
buffer, and feed each complete line through `procLine`. -/
def stepChunk (st : StreamState) (text : String) : StreamState :=
  let parts := splitNl (st.buffer ++ text.data)
  let newBuf := (parts.getLast?).getD []
  (parts.dropLast).foldl (fun s l => procLine s (String.mk l)) { st with buffer := newBuf }

/-- The whole streaming branch (server.js lines 160-212): fold the chunks
through the line buffer, then flush the remaining buffer through the
same per-line logic (lines 193-209 repeat lines 172-188). -/
def runStream (chunks : List String) : StreamState :=
  let st := chunks.foldl stepChunk ⟨[], [], ""⟩
  procLine st (String.mk st.buffer)

/-! ### History append (server.js lines 221-245) -/

/-- Outcome of one `saveHistory` call: either the file is rewritten with
the given record sequence (serialized with `JSON.stringify(h, null, 2)`),
or `history.push` threw on a non-array parsed value and the file is left
unchanged. -/
inductive SaveResult where
  | wrote : List JVal → SaveResult
  | pushThrew : SaveResult

/-- `saveHistory` (server.js lines 221-245) acting on the prior file
state: an absent file, an empty file or unparsable contents leave the
in-memory history at `[]`; a parsed value is used as-is, so `push` throws
when it is not an array and the record is never persisted. -/
def saveHistory (file : Option String) (rec : JVal) : SaveResult :=
  let history : JVal :=
    match file with
    | none => JVal.arr []
    | some data =>
      if data == "" then JVal.arr []
      else
        match parseJson data with
        | some v => v
        | none => JVal.arr []
  match history with
  | JVal.arr xs => SaveResult.wrote (xs ++ [rec])
  | _ => SaveResult.pushThrew

/-! ### The chat handler (server.js lines 85-219) -/

/-- The upstream webhook reply as observed by the handler: HTTP status,
declared content type header, and the body as the byte chunks delivered
to the async iterator. The whole-body text is their concatenation. -/
structure UpstreamReply where
  status : Nat
  contentType : Option String
  chunks : List String

/-- Observable outcome of one chat request: HTTP status sent to the
caller, the body text (concatenated text fragments, or a serialized JSON
error payload), the botResponse argument of each saveHistory call made,
and how many upstream fetches were issued. -/
structure ChatRun where
  httpStatus : Nat
  body : String
  logCalls : List String
  upstreamCalls : Nat

/-- JavaScript truthiness of the request `message` field, modelled as an
optional string: absent or empty is falsy. -/
def truthyStr : Option String → Bool
  | none => false
  | some s => !(s == "")

/-- `response.ok` of the Fetch API: status in the range 200-299. -/
def replyOk (status : Nat) : Bool :=
  200 ≤ status && status < 300

/-- Prefix test on character lists. -/
def leadsWith : List Char → List Char → Bool
  | [], _ => true
  | _ :: _, [] => false
  | p :: ps, h :: hs => p == h && leadsWith ps hs

/-- Substring search on character lists. -/
def hasSub (hay pat : List Char) : Bool :=
  leadsWith pat hay ||
    match hay with
    | [] => false
    | _ :: hs => hasSub hs pat

/-- `String.prototype.includes`. -/
def strIncludes (s pat : String) : Bool :=
  hasSub s.data pat.data

/-- server.js line 126: `contentType && contentType.includes('application/json')`;
a missing header is falsy and selects the streaming branch. -/
def ctIsJson : Option String → Bool
  | none => false
  | some ct => strIncludes ct "application/json"

/-- Serialized body of `res.status(...).json(x)` for the error payloads. -/
def errorJsonBody (msg details : String) : String :=
  stringify (JVal.obj [("error", JVal.str msg), ("details", JVal.str details)])

/-- Concatenation of the fragments written to the caller. -/
def concatStrs : List String → String
  | [] => ""
  | s :: ss => s ++ concatStrs ss

/-- Placeholder for the message of an exception thrown inside the try
block after a successful fetch (a JSON.parse SyntaxError or a res.write
TypeError); the platform-specific text is not modelled and no verified
claim depends on it. -/
def internalErrDetails : String := "internal exception"

/-- The `/api/chat` handler (server.js lines 85-219) as a function of the
request message and the single upstream interaction. `upstream` is
`Except.error e` when fetch rejects with description `e`, otherwise the
observed reply. The returned `ChatRun` records what the caller receives,
every saveHistory call and the number of upstream calls. -/
def handleChat (message : Option String) (upstream : Except String UpstreamReply) : ChatRun :=
  if truthyStr message then
    match upstream with
    | Except.error e =>
      ⟨500, errorJsonBody "Internal Server Error" e, [], 1⟩
    | Except.ok reply =>
      if replyOk reply.status then
        if ctIsJson reply.contentType then
          match jsonBranchRun (concatStrs reply.chunks) with
          | Except.ok br => ⟨200, br.1, [br.2], 1⟩
          | Except.error _ => ⟨500, errorJsonBody "Internal Server Error" internalErrDetails, [], 1⟩
        else
          let st := runStream reply.chunks
          ⟨200, concatStrs st.writes, [st.full], 1⟩
      else
        ⟨200, "Sorry, the webhook returned an error (" ++ toString reply.status
            ++ "). Please try again later.",
         ["Error: " ++ toString reply.status], 1⟩
  else
    ⟨400, stringify (JVal.obj [("error", JVal.str "Message is required")]), [], 0⟩

example : (handleChat (some "q")
    (Except.ok ⟨200, some "application/json", ["\x7b\"response\":\"hi\"\x7d"]⟩)).body = "hi" := rfl
example : (handleChat (some "q")
    (Except.ok ⟨200, some "application/json",
      ["[\x7b\"text\":\"a\"\x7d,\x7b\"text\":\"b\"\x7d]"]⟩)).body = "a\n\nb" := rfl
example : (handleChat (some "q")
    (Except.ok ⟨200, some "text/event-stream",
      ["\x7b\"type\":\"item\",\"content\":\"foo\"\x7d\n\x7b\"ty",
       "pe\":\"item\",\"content\":\"bar\"\x7d\n"]⟩)).body = "foobar" := rfl
example : lineEmit "\x7b\"output\":\"x\"\x7d" = none := rfl
example : lineEmit "\x7b\"message\":\"hi\"\x7d" = some "hi" := rfl
example : lineEmit "plain text" = some "plain text" := rfl
example : saveHistory (some "5") JVal.null = SaveResult.pushThrew := rfl

/-! ### Spec-side definitions, for comparison with the code-side ones -/

/-- First field of the given names whose value is truthy, in order. -/
def firstTruthyField (v : JVal) : List String → Option JVal
  | [] => none
  | k :: ks => if truthy (jlookup v k) then jlookup v k else firstTruthyField v ks

/-- First field of the given names that is present at all, in order. -/
def firstFieldPresent (v : JVal) : List String → Option JVal
  | [] => none
  | k :: ks =>
    match jlookup v k with
    | some w => some w
    | none => firstFieldPresent v ks

mutual

/-- Modelled from the spec: the claim C3 extraction rule exactly as
stated - a string payload is itself the result; otherwise a payload with
a `message`, `response`, `text` or `output` field yields that field;
otherwise an array is element-wise reduced by the same field-priority
rule and joined with a blank line; otherwise the raw serialized payload. -/
def specExtractC3 : JVal → String
  | JVal.str s => s
  | JVal.arr xs => joinSpecC3 xs
  | v =>
    match firstFieldPresent v ["message", "response", "text", "output"] with
    | some w => jsStringOf w
    | none => stringify v

/-- Blank-line join of the recursive claim C3 reduction. -/
def joinSpecC3 : List JVal → String
  | [] => ""
  | [v] => specExtractC3 v
  | v :: vs => specExtractC3 v ++ "\n\n" ++ joinSpecC3 vs

end

/-- Modelled from the spec (claim C1 special case): an object with
`type == "item"` and a truthy `content` field yields `content`. -/
def itemCase (json : JVal) : Option JVal :=
  if itemCond json then jlookup json "content" else none

/-- Modelled from the spec (amended claim C1): the per-line streaming
rule - the item special case first, else the first truthy of the
`message`, `text`, `response` fields, else nothing. -/
def streamRuleSpec (json : JVal) : Option JVal :=
  match itemCase json with
  | some c => some c
  | none => firstTruthyField json ["message", "text", "response"]

/-- How an extracted value reaches the caller: a string is forwarded
as-is; a non-string extraction makes the write throw and the raw line is
forwarded by the catch; no extraction forwards nothing. -/
def renderEmit (line : String) : Option JVal → Option String
  | some (JVal.str s) => some s
  | some _ => some line
  | none => none

/-- Modelled from the spec (amended claim C3): one array element -
a string is itself; the first truthy of `message`, `response`, `text`
otherwise; the serialized element as fallback; a null element throws. -/
def elemRuleSpec (item : JVal) : Except Unit JVal :=
  match item with
  | JVal.str s => Except.ok (JVal.str s)
  | JVal.null => Except.error ()
  | _ =>
    Except.ok ((firstTruthyField item ["message", "response", "text"]).getD
      (JVal.str (stringify item)))

/-- Modelled from the spec (amended claim C3): ordered extractor rules -
string payload; first truthy of `message`, `response`, `text`, `output`;
non-empty array reduced element-wise by `elemRuleSpec` and joined with a
blank line; serialized payload otherwise; null payload throws. -/
def extractSpecAmended (data : JVal) : Except Unit JVal :=
  match data with
  | JVal.str s => Except.ok (JVal.str s)
  | JVal.null => Except.error ()
  | _ =>
    match firstTruthyField data ["message", "response", "text", "output"] with
    | some w => Except.ok w
    | none =>
      match data with
      | JVal.arr (i :: is) =>
        (match mapExcept elemRuleSpec (i :: is) with
         | Except.error e => Except.error e
         | Except.ok parts => Except.ok (JVal.str (joinVals "\n\n" parts)))
      | _ => Except.ok (JVal.str (stringify data))

/-! ### Helper lemmas -/

theorem strAppendEmptyLem : ∀ s : String, s ++ "" = s
  | ⟨l⟩ => congrArg String.mk (List.append_nil l)

theorem strAppendAssocLem : ∀ a b c : String, a ++ b ++ c = a ++ (b ++ c)
  | ⟨x⟩, ⟨y⟩, ⟨z⟩ => congrArg String.mk (List.append_assoc x y z)

theorem concatStrsSnoc (ws : List String) (s : String) :
    concatStrs (ws ++ [s]) = concatStrs ws ++ s := by
  induction ws with
  | nil => simp [concatStrs, strAppendEmptyLem]
  | cons w ws ih => simp [concatStrs, ih, strAppendAssocLem]

theorem truthySome {o : Option JVal} (h : truthy o = true) :
    o = some (o.getD JVal.null) := by
  cases o with
  | none => simp [truthy] at h
  | some w => rfl

theorem truthyEx {o : Option JVal} (h : truthy o = true) : ∃ w, o = some w := by
  cases o with
  | none => simp [truthy] at h
  | some w => exact ⟨w, rfl⟩

theorem mapExceptCongr {f g : JVal → Except Unit JVal} (hfg : ∀ x, f x = g x) :
    ∀ l, mapExcept f l = mapExcept g l := by
  intro l
  induction l with
  | nil => rfl
  | cons x xs ih => simp [mapExcept, hfg x, ih]

theorem jsOrChainEq (m r t : Option JVal) (fb : JVal) :
    (jsOr (jsOr (jsOr m r) t) (some fb)).getD JVal.null
      = (if truthy m then m else if truthy r then r else if truthy t then t else none).getD fb := by
  by_cases hm : truthy m = true
  · obtain ⟨w, hw⟩ := truthyEx hm
    subst hw
    simp [jsOr, hm]
  · by_cases hr : truthy r = true
    · obtain ⟨w, hw⟩ := truthyEx hr
      subst hw
      simp [jsOr, hm, hr]
    · by_cases ht : truthy t = true
      · obtain ⟨w, hw⟩ := truthyEx ht
        subst hw
        simp [jsOr, hm, hr, ht]
      · simp [jsOr, hm, hr, ht]

theorem elemReduceEqSpec (item : JVal) : elemReduce item = elemRuleSpec item := by
  cases item with
  | str s => rfl
  | null => rfl
  | num n =>
    simp only [elemReduce, elemRuleSpec, firstTruthyField]
    rw [jsOrChainEq]
  | bool b =>
    simp only [elemReduce, elemRuleSpec, firstTruthyField]
    rw [jsOrChainEq]
  | arr xs =>
    simp only [elemReduce, elemRuleSpec, firstTruthyField]
    rw [jsOrChainEq]
  | obj fs =>
    simp only [elemReduce, elemRuleSpec, firstTruthyField]
    rw [jsOrChainEq]

theorem extractEqSpec (data : JVal) : extractJsonE data = extractSpecAmended data := by
  cases data with
  | str s => rfl
  | null => rfl
  | num n => rfl
  | bool b => rfl
  | arr items =>
    cases items with
    | nil => rfl
    | cons i is =>
      have hcong := mapExceptCongr elemReduceEqSpec (i :: is)
      simp only [extractJsonE, extractSpecAmended, jlookup, truthy, firstTruthyField,
        List.length_cons, if_false, Bool.false_eq_true]
      rw [hcong]
      simp
  | obj fs =>
    simp only [extractJsonE, extractSpecAmended, firstTruthyField]
    by_cases hm : truthy (jlookup (JVal.obj fs) "message") = true
    · obtain ⟨w, hw⟩ := truthyEx hm
      have hww : truthy (some w) = true := hw ▸ hm
      simp [hm, hw, hww]
    · by_cases hr : truthy (jlookup (JVal.obj fs) "response") = true
      · obtain ⟨w, hw⟩ := truthyEx hr
        have hww : truthy (some w) = true := hw ▸ hr
        simp [hm, hr, hw, hww]
      · by_cases ht : truthy (jlookup (JVal.obj fs) "text") = true
        · obtain ⟨w, hw⟩ := truthyEx ht
          have hww : truthy (some w) = true := hw ▸ ht
          simp [hm, hr, ht, hw, hww]
        · by_cases ho : truthy (jlookup (JVal.obj fs) "output") = true
          · obtain ⟨w, hw⟩ := truthyEx ho
            have hww : truthy (some w) = true := hw ▸ ho
            simp [hm, hr, ht, ho, hw, hww]
          · simp [hm, hr, ht, ho]

theorem jsOrTriple (m t r : Option JVal) :
    (if truthy (jsOr (jsOr m t) r) then jsOr (jsOr m t) r else none)
      = (if truthy m then m else if truthy t then t else if truthy r then r else none) := by
  by_cases hm : truthy m = true <;> by_cases ht : truthy t = true <;>
    by_cases hr : truthy r = true <;> simp [jsOr, hm, ht, hr]

theorem streamExtractEq (json : JVal) : streamExtract json = streamRuleSpec json := by
  by_cases hic : itemCond json = true
  · have hc : truthy (jlookup json "content") = true := by
      have h2 := hic
      unfold itemCond at h2
      exact (Bool.and_eq_true _ _).mp h2 |>.2
    obtain ⟨c, hcc⟩ := truthyEx hc
    simp [streamExtract, streamRuleSpec, itemCase, hic, hcc]
  · simp only [streamExtract, streamRuleSpec, itemCase, hic, if_false, Bool.false_eq_true]
    rw [jsOrTriple]
    simp [firstTruthyField]

/-- The accumulated `fullResponse` always equals the concatenation of the
fragments written so far. -/
def streamInv (st : StreamState) : Prop :=
  st.full = concatStrs st.writes

theorem procLineInv (st : StreamState) (line : String) (h : streamInv st) :
    streamInv (procLine st line) := by
  unfold procLine
  cases hle : lineEmit line with
  | none => simpa using h
  | some s =>
    show st.full ++ s = concatStrs (st.writes ++ [s])
    rw [concatStrsSnoc, h]

theorem foldlLinesInv (lines : List (List Char)) (st : StreamState) (h : streamInv st) :
    streamInv (lines.foldl (fun s l => procLine s (String.mk l)) st) := by
  induction lines generalizing st with
  | nil => simpa using h
  | cons l ls ih => exact ih _ (procLineInv _ _ h)

theorem stepChunkInv (st : StreamState) (text : String) (h : streamInv st) :
    streamInv (stepChunk st text) := by
  unfold stepChunk
  exact foldlLinesInv _ _ h

theorem foldlChunksInv (chunks : List String) (st : StreamState) (h : streamInv st) :
    streamInv (chunks.foldl stepChunk st) := by
  induction chunks generalizing st with
  | nil => simpa using h
  | cons c cs ih => exact ih _ (stepChunkInv _ _ h)

theorem runStreamInv (chunks : List String) : streamInv (runStream chunks) :=
  procLineInv _ _ (foldlChunksInv chunks ⟨[], [], ""⟩ rfl)

theorem jsonBranchPair {t : String} {b l : String}
    (h : jsonBranchRun t = Except.ok (b, l)) : l = b := by
  unfold jsonBranchRun at h
  cases hp : parseJson t with
  | none => simp [hp] at h
  | some data =>
    simp only [hp] at h
    cases he : extractJsonE data with
    | error e => simp [he] at h
    | ok v =>
      simp only [he] at h
      cases v <;> simp_all
      exact h.2.symm.trans h.1

/-- Substring containment, stated by explicit decomposition. -/
def containsStr (s sub : String) : Prop :=
  ∃ pre post, s = pre ++ sub ++ post

/-! ### Claims -/

/-- Claim C1, as stated, is false: a complete streaming line that parses
as JSON is NOT reduced by the whole-JSON field-priority rule. On the line
holding the object with field `output` set to "x", the whole-JSON rule
extracts "x" (and the item special case does not apply), yet the
streaming branch emits nothing. -/
theorem C1_counterexample :
    ¬ (∀ (line : String) (json : JVal) (s : String),
        jsTrim line ≠ "" → parseJson line = some json → itemCase json = none →
        extractJsonE json = Except.ok (JVal.str s) → lineEmit line = some s) := by
  intro h
  have h2 := h "\x7b\"output\":\"x\"\x7d" (JVal.obj [("output", JVal.str "x")]) "x"
    (by decide) rfl rfl rfl
  exact absurd h2 (by decide)

/-- Claim C1 amended: in the streaming branch, every complete non-blank
line that parses as a non-null JSON value is reduced by the rule: the
item special case (`type == "item"` with truthy `content` yields
`content`), else the first truthy of the `message`, `text`, `response`
fields (note the order, and the absence of the string case, the `output`
field, the array reduction and the serialization fallback of the
whole-JSON rule); a non-string extracted value falls back to the raw
line, and no extraction emits nothing. -/
theorem C1_amended_thm (line : String) (json : JVal)
    (hb : jsTrim line ≠ "") (hp : parseJson line = some json) (hn : json ≠ JVal.null) :
    lineEmit line = renderEmit line (streamRuleSpec json) := by
  have hb2 : (jsTrim line == "") = false := by
    rw [beq_eq_false_iff_ne]
    exact hb
  rw [← streamExtractEq]
  unfold lineEmit renderEmit
  simp only [hp, hb2, Bool.false_eq_true, if_false]

/-- Witness for the amended claim C1 at a concrete line. -/
theorem C1_witness : lineEmit "\x7b\"message\":\"hi\"\x7d" = some "hi" := by
  have h := C1_amended_thm "\x7b\"message\":\"hi\"\x7d" (JVal.obj [("message", JVal.str "hi")])
    (by decide) rfl (by simp)
  exact h.trans (by rfl)

/-- Claim C2, as stated, is false: a complete line that parses as JSON
but from which extraction yields nothing is NOT forwarded raw - it is
dropped. On the line holding an object with only a `foo` field, the
extraction yields nothing and the streaming branch emits nothing instead
of the raw line. -/
theorem C2_counterexample :
    ¬ (∀ line : String, jsTrim line ≠ "" →
        (parseJson line = none ∨
          ∃ json, parseJson line = some json ∧ json ≠ JVal.null ∧ streamExtract json = none) →
        lineEmit line = some line) := by
  intro h
  have h2 := h "\x7b\"foo\":1\x7d" (by decide)
    (Or.inr ⟨JVal.obj [("foo", JVal.num 1)], rfl, by simp, rfl⟩)
  exact absurd h2 (by decide)

/-- Claim C2 amended: a complete non-blank line that fails to parse as
JSON is forwarded to the caller unchanged (and, by the accumulator
invariant, accumulated into the logged response); a complete line that
parses as a non-null JSON value from which extraction yields nothing
produces no output at all. -/
theorem C2_amended_thm :
    (∀ line : String, jsTrim line ≠ "" → parseJson line = none → lineEmit line = some line)
    ∧ (∀ (line : String) (json : JVal), jsTrim line ≠ "" → parseJson line = some json →
        json ≠ JVal.null → streamExtract json = none → lineEmit line = none) := by
  constructor
  · intro line hb hp
    have hb2 : (jsTrim line == "") = false := by
      rw [beq_eq_false_iff_ne]
      exact hb
    unfold lineEmit
    simp [hp, hb2]
  · intro line json hb hp hn hse
    have hb2 : (jsTrim line == "") = false := by
      rw [beq_eq_false_iff_ne]
      exact hb
    unfold lineEmit
    simp only [hp, hb2, Bool.false_eq_true, if_false]
    cases json with
    | null => exact absurd rfl hn
    | str s => rw [hse]
    | num n => rw [hse]
    | bool b => rw [hse]
    | arr xs => rw [hse]
    | obj fs => rw [hse]

/-- Witness for the amended claim C2 at concrete lines. -/
theorem C2_witness :
    lineEmit "plain text" = some "plain text" ∧ lineEmit "\x7b\"a\":1\x7d" = none :=
  ⟨C2_amended_thm.1 "plain text" (by decide) rfl,
   C2_amended_thm.2 "\x7b\"a\":1\x7d" (JVal.obj [("a", JVal.num 1)]) (by decide) rfl
     (by simp) rfl⟩

/-- Claim C3, as stated, is false: array elements are NOT reduced by the
same field-priority rule as the whole payload. On the one-element array
whose element has only an `output` field, the stated rule yields "z",
but the code reduces the element without consulting `output` and falls
back to its serialization. -/
theorem C3_counterexample :
    ¬ (∀ (data : JVal) (s : String),
        extractJsonE data = Except.ok (JVal.str s) → s = specExtractC3 data) := by
  intro h
  have h2 := h (JVal.arr [JVal.obj [("output", JVal.str "z")]]) "\x7b\"output\":\"z\"\x7d" rfl
  exact absurd h2 (by decide)

/-- Claim C3 amended: the JSON branch checks, in order, whether the
payload is itself a string, then the first TRUTHY of the `message`,
`response`, `text`, `output` fields, then whether it is a NON-EMPTY
array - whose elements are reduced by the weaker rule: string itself,
first truthy of `message`, `response`, `text`, serialized element
otherwise (no `output`, no recursion) - joined with a blank line,
falling back to the serialized payload (including for empty arrays);
a null payload or element makes the handler throw instead. The two
example replies behave as stated: the object with `response` set to
"hi" yields exactly "hi", and the two-element `text` array yields
"a", blank line, "b". -/
theorem C3_amended_thm :
    (∀ data : JVal, extractJsonE data = extractSpecAmended data)
    ∧ (handleChat (some "q") (Except.ok ⟨200, some "application/json",
        ["\x7b\"response\":\"hi\"\x7d"]⟩)).body = "hi"
    ∧ (handleChat (some "q") (Except.ok ⟨200, some "application/json",
        ["[\x7b\"text\":\"a\"\x7d,\x7b\"text\":\"b\"\x7d]"]⟩)).body = "a\n\nb" :=
  ⟨extractEqSpec, rfl, rfl⟩

/-- Claim C4: a non-JSON-content-type stream delivered in two chunks that
split a line mid-token is reassembled by the carry-over buffer; the
caller receives exactly "foobar", as the fragments "foo" then "bar",
with no loss and no duplication. -/
theorem C4_thm :
    (handleChat (some "hi") (Except.ok ⟨200, some "text/event-stream",
      ["\x7b\"type\":\"item\",\"content\":\"foo\"\x7d\n\x7b\"ty",
       "pe\":\"item\",\"content\":\"bar\"\x7d\n"]⟩)).body = "foobar"
    ∧ (runStream ["\x7b\"type\":\"item\",\"content\":\"foo\"\x7d\n\x7b\"ty",
        "pe\":\"item\",\"content\":\"bar\"\x7d\n"]).writes = ["foo", "bar"] :=
  ⟨rfl, rfl⟩

/-- Claim C5: for every upstream reply with a non-success status, the
caller receives the fixed plain-text message containing that status
code, exactly one history record is appended whose bot-response string
contains that status code, and exactly one upstream call is made (no
retry). -/
theorem C5_thm (msg : Option String) (st : Nat) (ct : Option String) (chunks : List String)
    (hm : truthyStr msg = true) (hok : replyOk st = false) :
    handleChat msg (Except.ok ⟨st, ct, chunks⟩)
      = ⟨200, "Sorry, the webhook returned an error (" ++ toString st
          ++ "). Please try again later.", ["Error: " ++ toString st], 1⟩
    ∧ containsStr ("Sorry, the webhook returned an error (" ++ toString st
        ++ "). Please try again later.") (toString st)
    ∧ containsStr ("Error: " ++ toString st) (toString st) := by
  refine ⟨?_, ⟨"Sorry, the webhook returned an error (", "). Please try again later.", rfl⟩,
    ⟨"Error: ", "", (strAppendEmptyLem _).symm⟩⟩
  unfold handleChat
  simp [hm, hok]

/-- Witness for claim C5 at upstream status 503. -/
theorem C5_witness :
    handleChat (some "hello") (Except.ok ⟨503, none, []⟩)
      = ⟨200, "Sorry, the webhook returned an error (" ++ toString 503
          ++ "). Please try again later.", ["Error: " ++ toString 503], 1⟩
    ∧ containsStr ("Sorry, the webhook returned an error (" ++ toString 503
        ++ "). Please try again later.") (toString 503)
    ∧ containsStr ("Error: " ++ toString 503) (toString 503) :=
  C5_thm (some "hello") 503 none [] (by decide) (by decide)

/-- Claim C6: when fetch rejects, the caller receives status 500 with the
structured JSON error payload holding the failure description in its
`details` field, no history record is written, and one upstream call was
attempted. -/
theorem C6_thm (msg : Option String) (e : String) (hm : truthyStr msg = true) :
    handleChat msg (Except.error e)
      = ⟨500, errorJsonBody "Internal Server Error" e, [], 1⟩ := by
  unfold handleChat
  simp [hm]

/-- Witness for claim C6 at a concrete transport failure. -/
theorem C6_witness :
    handleChat (some "hi") (Except.error "connect ECONNREFUSED")
      = ⟨500, errorJsonBody "Internal Server Error" "connect ECONNREFUSED", [], 1⟩ :=
  C6_thm (some "hi") "connect ECONNREFUSED" (by decide)

/-- Claim C7: an absent history file, or one whose contents do not parse
as JSON, is treated as the empty sequence: the append succeeds and the
rewritten file holds exactly the one-element array with the new record. -/
theorem C7_thm (file : Option String) (rec : JVal)
    (h : file = none ∨ ∃ c, file = some c ∧ parseJson c = none) :
    saveHistory file rec = SaveResult.wrote [rec] := by
  rcases h with h | ⟨c, hc, hp⟩
  · subst h
    rfl
  · subst hc
    unfold saveHistory
    cases hce : c == "" with
    | true => simp [hce]
    | false => simp [hce, hp]

/-- Witness for claim C7 at a concrete unparsable file. -/
theorem C7_witness :
    saveHistory (some "oops not json") (JVal.str "rec")
      = SaveResult.wrote [JVal.str "rec"] :=
  C7_thm (some "oops not json") (JVal.str "rec") (Or.inr ⟨"oops not json", rfl, rfl⟩)

/-- Claim C8: a chat request without a truthy message field is answered
with status 400 and the structured error payload, no upstream call is
made and no history record is written. -/
theorem C8_thm (msg : Option String) (upstream : Except String UpstreamReply)
    (hm : truthyStr msg = false) :
    handleChat msg upstream
      = ⟨400, stringify (JVal.obj [("error", JVal.str "Message is required")]), [], 0⟩ := by
  unfold handleChat
  simp [hm]

/-- Witness for claim C8 at an absent message. -/
theorem C8_witness :
    handleChat none (Except.error "never reached")
      = ⟨400, stringify (JVal.obj [("error", JVal.str "Message is required")]), [], 0⟩ :=
  C8_thm none (Except.error "never reached") rfl

/-- Claim C9, as stated, is false in its totality clause: saveHistory is
not total over every history-file content - the file content "5" parses
successfully to a non-array and push throws. -/
theorem C9_counterexample :
    ¬ (∀ (content : String) (rec : JVal),
        saveHistory (some content) rec ≠ SaveResult.pushThrew) := by
  intro h
  exact h "5" JVal.null rfl

/-- Claim C9 amended: for file content that is valid JSON but not an
array, the parse succeeds, push is applied to a non-array value and
throws, and the record is never persisted; only parse failures are
mapped to the empty sequence, after which the append succeeds with the
single new record. -/
theorem C9_amended_thm :
    (∀ (content : String) (v rec : JVal), parseJson content = some v →
        (∀ xs, v ≠ JVal.arr xs) → saveHistory (some content) rec = SaveResult.pushThrew)
    ∧ (∀ (content : String) (rec : JVal), parseJson content = none →
        saveHistory (some content) rec = SaveResult.wrote [rec]) := by
  constructor
  · intro content v rec hp hv
    have hce : (content == "") = false := by
      rw [beq_eq_false_iff_ne]
      intro hc
      subst hc
      rw [show parseJson "" = none from rfl] at hp
      exact Option.noConfusion hp
    unfold saveHistory
    simp only [hce, Bool.false_eq_true, if_false, hp]
  · intro content rec hp
    unfold saveHistory
    cases hce : content == "" with
    | true => simp [hce]
    | false => simp [hce, hp]

/-- Witness for the amended claim C9 at concrete file contents. -/
theorem C9_witness :
    saveHistory (some "5") (JVal.str "r") = SaveResult.pushThrew
    ∧ saveHistory (some "nope") (JVal.str "r") = SaveResult.wrote [JVal.str "r"] :=
  ⟨C9_amended_thm.1 "5" (JVal.num 5) (JVal.str "r") rfl (fun xs => by simp),
   C9_amended_thm.2 "nope" (JVal.str "r") rfl⟩

/-- Claim C10: in both success branches the bot response handed to the
history log equals the concatenation of the fragments written to the
caller: the streaming accumulator always equals the concatenation of
the written fragments, and for every successful reply handled with
status 200 the single logged string is exactly the response body. -/
theorem C10_thm :
    (∀ chunks : List String, (runStream chunks).full = concatStrs (runStream chunks).writes)
    ∧ (∀ (msg : Option String) (reply : UpstreamReply),
        truthyStr msg = true → replyOk reply.status = true →
        (handleChat msg (Except.ok reply)).httpStatus = 200 →
        (handleChat msg (Except.ok reply)).logCalls
          = [(handleChat msg (Except.ok reply)).body]) := by
  constructor
  · intro chunks
    exact runStreamInv chunks
  · intro msg reply hm hok h200
    unfold handleChat at h200 ⊢
    simp only [hm, hok, if_true] at h200 ⊢
    by_cases hct : ctIsJson reply.contentType = true
    · simp only [hct, if_true] at h200 ⊢
      cases hbr : jsonBranchRun (concatStrs reply.chunks) with
      | error e => simp [hbr] at h200
      | ok br =>
        obtain ⟨b, l⟩ := br
        have hlb := jsonBranchPair hbr
        simp [hbr, hlb]
    · simp only [hct, Bool.false_eq_true, if_false] at h200 ⊢
      have hfull := runStreamInv reply.chunks
      unfold streamInv at hfull
      simp [hfull]

/-- Witness for claim C10 at a concrete streamed reply. -/
theorem C10_witness :
    (handleChat (some "hi") (Except.ok ⟨200, none, ["x\ny\n"]⟩)).logCalls
      = [(handleChat (some "hi") (Except.ok ⟨200, none, ["x\ny\n"]⟩)).body] :=
  C10_thm.2 (some "hi") ⟨200, none, ["x\ny\n"]⟩ (by decide) (by decide) rfl
